import Mathlib

/-!
Shallow embedding of `src/fetch_definitions.py` (class `DefinitionFetcher`)
from the tnguyen91/dictionary-api repository, together with proofs that
settle the claims about its specification.

Modelling conventions:
* Python dictionaries/lists produced by the code are modelled by the
  inductive `DictApi.Json` below; a Python `dict` is an association list
  that preserves insertion order, exactly as CPython does.
* Network calls are modelled by oracle functions supplied as parameters:
  the value the oracle returns stands for the body the call would produce,
  and `Except.error ()` stands for any exception raised by the call
  (connection failure, timeout, `raise_for_status` on a 4xx/5xx status,
  JSON parse failure).  A `try/except` block around a region becomes a
  `match` on the `Except` value of the embedded region.
* BeautifulSoup parsing is abstracted at the boundary the claims need:
  an HTTP response carries the selected content subtree (after the
  selector search, the `body` fallback and the removal of
  nav/header/footer/aside/script/style nodes) as the list of the
  paragraph texts `p.get_text(separator=' ', strip=True)` in document
  order plus the subtree's own `get_text(separator=' ', strip=True)`.
* Python string operations are modelled character-wise: `len` counts
  characters, `s[:n]` is `String.take`, `s[n:]` is `String.drop`,
  `str.strip` is `String.trim`, `str.lower` is `String.toLower`.
  `re.sub(r'\s+', ' ', s)` is `collapseWs`, and the three boilerplate
  substitutions `re.sub(r'<marker>.*$', '', s)` (applied to text with no
  newlines, so a match runs from the leftmost occurrence of the literal
  marker to the end) are `stripFrom`.
-/

namespace DictApi

/-- JSON-like values: the payload shapes the code under test manipulates
(`null`, strings, arrays, insertion-ordered objects). -/
inductive Json where
  | null : Json
  | str : String → Json
  | arr : List Json → Json
  | obj : List (String × Json) → Json

/-- Python truthiness of a JSON value: `None`, `""`, `[]` and `{}` are
falsy, everything else the code encounters is truthy. -/
def truthy : Json → Bool
  | .null => false
  | .str s => !(s == "")
  | .arr l => !l.isEmpty
  | .obj l => !l.isEmpty

/-- Membership test for object values. -/
def Json.isObj : Json → Bool
  | .obj _ => true
  | _ => false

/-- Lookup of a key in an object (Python `d[k]` / `d.get(k)` on a `dict`);
`none` when the receiver is not an object or the key is absent. -/
def Json.getKey : Json → String → Option Json
  | .obj kvs, k => (kvs.find? (fun kv => kv.1 == k)).map Prod.snd
  | _, _ => none

/-- Update (or append) a key in an insertion-ordered association list,
exactly as assignment `d[k] = v` behaves on a CPython `dict`. -/
def setAssoc (kvs : List (String × Json)) (k : String) (v : Json) : List (String × Json) :=
  match kvs with
  | [] => [(k, v)]
  | (k', v') :: rest => if k' == k then (k, v) :: rest else (k', v') :: setAssoc rest k v

/-- Assignment `d[k] = v` on an object; identity on non-objects. -/
def Json.setKey : Json → String → Json → Json
  | .obj kvs, k, v => .obj (setAssoc kvs k v)
  | j, _, _ => j

/-- Helper for `collapseWs`: the Boolean records whether we are inside a
whitespace run that has already emitted its single replacement space. -/
def collapseAux : Bool → List Char → List Char
  | _, [] => []
  | inRun, c :: cs =>
    if c.isWhitespace then
      if inRun then collapseAux true cs else ' ' :: collapseAux true cs
    else c :: collapseAux false cs

/-- Model of Python `re.sub(r'\s+', ' ', s)`: every maximal whitespace run
is replaced by a single space. -/
def collapseWs (s : String) : String := ⟨collapseAux false s.data⟩

/-- Helper for `stripFrom` working on character lists. -/
def stripFromList (m : List Char) : List Char → List Char
  | [] => []
  | c :: cs => if m.isPrefixOf (c :: cs) then [] else c :: stripFromList m cs

/-- Model of Python `re.sub(r'<marker>.*$', '', s)` on newline-free text:
everything from the leftmost occurrence of the literal `marker` to the end
of the string is removed; the string is unchanged when the marker does not
occur. -/
def stripFrom (marker s : String) : String := ⟨stripFromList marker.data s.data⟩

/-- Model of Python `str.capitalize()`: first character uppercased, the
rest lowercased. -/
def pyCapitalize (s : String) : String :=
  match s.data with
  | [] => ""
  | c :: cs => ⟨c.toUpper :: cs.map Char.toLower⟩

/-- Model of Python `str.lower()` (character-wise, adequate for the ASCII
data the claims exercise). -/
def pyLower (s : String) : String := ⟨s.data.map Char.toLower⟩

/-- Model of Python `str.strip()`: leading and trailing whitespace
removed. -/
def pyStrip (s : String) : String :=
  ⟨(((s.data.dropWhile Char.isWhitespace).reverse.dropWhile Char.isWhitespace).reverse)⟩

/-- Model of Python `a.startswith(b)`. -/
def pyStartsWith (text pre : String) : Bool := pre.data.isPrefixOf text.data

/-- Model of Python `s[:n]`. -/
def pyTake (n : Nat) (s : String) : String := ⟨s.data.take n⟩

/-- Model of Python `s[n:]`. -/
def pyDrop (n : Nat) (s : String) : String := ⟨s.data.drop n⟩

/-- Model of Python `len(s)`. -/
def pyLen (s : String) : Nat := s.data.length

/-- Lines 82-83 of the source: if `text.lower().startswith(word.lower() + ' ')`
then `text = text[len(word):].strip()`. -/
def stripLeadingWord (word text : String) : String :=
  if pyStartsWith (pyLower text) (pyLower word ++ " ") then pyStrip (pyDrop (pyLen word) text)
  else text

example : collapseWs "a  b \t c" = "a b c" := by decide
example : stripFrom "Copyright" "good text. Copyright 2010 x" = "good text. " := by decide
example : stripFrom "Copyright" "good text" = "good text" := by decide
example : pyCapitalize "heLLo" = "Hello" := by decide
example : stripLeadingWord "Dog" "dog runs fast" = "runs fast" := by decide
example : stripLeadingWord "Dog" "a dog runs" = "a dog runs" := by decide

/-!
Web dictionary client (`fetch_easton_definition`, lines 41-100).

The HTTP layer and the BeautifulSoup parse are abstracted at the
boundary described in the header: `HttpResp.content` is the content
subtree the selector search (or the `body` fallback) yields after the
noise nodes are decomposed, with `none` for the case where neither a
selector nor `body` matches anything truthy; `ContentDiv.paragraphs`
are the values `p.get_text(separator=' ', strip=True)` of its `<p>`
descendants in document order, and `ContentDiv.fullText` is the
subtree's own `get_text(separator=' ', strip=True)`.
-/

/-- Abstraction of the selected content subtree of the fetched page. -/
structure ContentDiv where
  paragraphs : List String
  fullText : String

/-- Abstraction of the `requests` response: final status code and parsed
content. -/
structure HttpResp where
  status : Nat
  content : Option ContentDiv

/-- Line 43 of the source: the page URL is the fixed site prefix followed
by `word.capitalize()`. -/
def eastonUrl (word : String) : String :=
  "https://www.biblegateway.com/resources/eastons-bible-dictionary/" ++ pyCapitalize word

/-- Lines 77-83 of the source, the per-paragraph cleaning chain: collapse
whitespace and strip, remove the three boilerplate trailers
(`BibleGateway.com`, `Copyright`, `All rights reserved`), then the
leading-word removal. -/
def pProcess (word ptext : String) : String :=
  stripLeadingWord word
    (stripFrom "All rights reserved"
      (stripFrom "Copyright"
        (stripFrom "BibleGateway.com" (pyStrip (collapseWs ptext)))))

/-- Lines 74-86 of the source: scan the paragraph texts in document
order; a paragraph with truthy text longer than 30 characters is cleaned
by `pProcess`, and the first whose cleaned text exceeds 20 characters is
returned. -/
def eastonParagraphs (word : String) : List String → Option String
  | [] => none
  | ptext :: rest =>
    if ptext ≠ "" ∧ pyLen ptext > 30 then
      let text := pProcess word ptext
      if pyLen text > 20 then some text else eastonParagraphs word rest
    else eastonParagraphs word rest

/-- Lines 88-94 of the source, the fallback when no paragraph qualified:
if the subtree text is truthy and longer than 50 characters, collapse
whitespace, truncate to 500 characters, remove only the
`BibleGateway.com` trailer, apply the leading-word removal, and return
the result unconditionally (it may be empty). -/
def eastonFallback (word divText : String) : Option String :=
  if divText ≠ "" ∧ pyLen divText > 50 then
    some (stripLeadingWord word
      (stripFrom "BibleGateway.com" (pyTake 500 (collapseWs divText))))
  else none

/-- Lines 41-100 of the source: `fetch_easton_definition`.  The `http`
oracle stands for `self.session.get(url, timeout=10)`: `Except.error ()`
is an exception raised by the request itself (connection failure,
timeout), which the enclosing `try/except` turns into `None`.  A 4xx/5xx
status makes `raise_for_status()` raise, caught the same way; a
remaining status other than 200 skips the extraction and falls through
to `return None`. -/
def fetch_easton_definition (http : String → Except Unit HttpResp) (word : String) :
    Option String :=
  match http (eastonUrl word) with
  | .error _ => none
  | .ok resp =>
    if 400 ≤ resp.status then none
    else if resp.status == 200 then
      match resp.content with
      | none => none
      | some div =>
        match eastonParagraphs word div.paragraphs with
        | some text => some text
        | none => eastonFallback word div.fullText
    else none

/-!
Lexical database client (`fetch_wordnet_definitions`, lines 102-117).
The NLTK WordNet corpus is abstracted as an oracle from the looked-up
string to the synset list; `Except.error ()` is any exception the lookup
raises (e.g. the database being unavailable), which the enclosing
`try/except` turns into `[]`.
-/

/-- Abstraction of an NLTK synset: its part-of-speech tag (`synset.pos()`)
and its gloss (`synset.definition()`). -/
structure Synset where
  pos : String
  gloss : String

/-- Lines 108-109 of the source: the fixed part-of-speech table. -/
def pos_map : List (String × String) :=
  [("n", "noun"), ("v", "verb"), ("a", "adjective"),
   ("s", "adjective satellite"), ("r", "adverb")]

/-- Line 110 of the source: `pos_map.get(synset.pos(), synset.pos())`. -/
def posLabel (p : String) : String :=
  ((pos_map.find? (fun kv => kv.1 == p)).map Prod.snd).getD p

/-- Lines 105-111 of the source: the accumulation loop
`definitions.append(f"{pos_full}: {synset.definition()}")`. -/
def wordnetLoop : List Synset → List String → List String
  | [], acc => acc
  | s :: rest, acc => wordnetLoop rest (acc ++ [posLabel s.pos ++ ": " ++ s.gloss])

/-- Lines 102-117 of the source: `fetch_wordnet_definitions`.  The lookup
is performed on `word.lower()`; any exception yields `[]`. -/
def fetch_wordnet_definitions (synsets : String → Except Unit (List Synset))
    (word : String) : List String :=
  match synsets (pyLower word) with
  | .error _ => []
  | .ok ss => wordnetLoop ss []

example :
    fetch_wordnet_definitions
      (fun s => if s == "dog" then .ok [⟨"n", "a domestic animal"⟩, ⟨"x", "odd"⟩] else .error ())
      "DoG" = ["noun: a domestic animal", "x: odd"] := by decide

/-!
Pronunciation client (`fetch_merriam_pronunciation`, lines 149-193).
The whole body sits in one `try/except Exception: return {}`; the
embedding therefore computes the body in `Except Unit Json`, where
`Except.error ()` marks any point at which the Python code would raise,
and the wrapper maps errors to the empty dict.  The combined
`session.get` / `raise_for_status` / `r.json()` step is the `resp`
oracle value: `Except.error ()` covers network failure, timeout, a
non-2xx status and a JSON parse failure alike.
-/

/-- Line 181 of the source: the fixed CDN template with the first
character of the audio filename as subdirectory. -/
def mwAudioUrl (audio_file : String) : String :=
  "https://media.merriam-webster.com/audio/prons/en/us/mp3/" ++
    pyTake 1 audio_file ++ "/" ++ audio_file ++ ".mp3"

/-- Lines 175-181 of the source: `sound = p.get('sound', {})` has already
been read; this computes `audio_url`.  A falsy `sound` or falsy
`sound.get('audio')` leaves the URL absent; `sound.get` on a non-dict
raises; a truthy non-string audio value (where Python would subscript and
format an arbitrary object) is modelled as a failure. -/
def merriamSound (sound : Json) : Except Unit (Option String) :=
  if truthy sound then
    match sound with
    | .obj _ =>
      match (sound.getKey "audio").getD .null with
      | .str s => if s == "" then .ok none else .ok (some (mwAudioUrl s))
      | a => if truthy a then .error () else .ok none
    | _ => .error ()
  else .ok none

/-- Lines 173-188 of the source, the per-item body of the `for p in prs`
loop: build `item` with the optional `text` and `audio` keys in that
insertion order; `p.get` on a non-dict raises. -/
def merriamItem (p : Json) : Except Unit Json :=
  match p with
  | .obj _ =>
    let text := (p.getKey "mw").getD .null
    let sound := (p.getKey "sound").getD (.obj [])
    match merriamSound sound with
    | .error e => .error e
    | .ok au =>
      .ok (.obj ((if truthy text then [("text", text)] else []) ++
        (match au with
         | some u => [("audio", Json.str u)]
         | none => [])))
  | _ => .error ()

/-- The `for p in prs` loop with its accumulator `phonetics`; only truthy
items are appended, and an exception in any iteration aborts the whole
computation. -/
def merriamFold : List Json → List Json → Except Unit (List Json)
  | [], acc => .ok acc
  | p :: rest, acc =>
    match merriamItem p with
    | .error e => .error e
    | .ok item => merriamFold rest (if truthy item then acc ++ [item] else acc)

/-- Iteration over the value of `hwi.get('prs', [])`: a list iterates its
elements; iterating an empty dict or empty string yields nothing; the
remaining cases (Python would iterate dict keys or characters and then
raise inside `p.get`, or raise at the `for` itself) are failures. -/
def merriamLoop : Json → Except Unit (List Json)
  | .arr ps => merriamFold ps []
  | .obj [] => .ok []
  | .str "" => .ok []
  | _ => .error ()

/-- Lines 150-191 of the source: the body of the `try` block of
`fetch_merriam_pronunciation`. -/
def merriamBody (api_key : String) (resp : Except Unit Json) : Except Unit Json :=
  if api_key == "" then .ok (.obj []) else
  match resp with
  | .error e => .error e
  | .ok data =>
    if !truthy data then .ok (.obj []) else
    match data with
    | .arr items =>
      match items.find? Json.isObj with
      | none => .ok (.obj [])
      | some entry =>
        if !truthy entry then .ok (.obj []) else
        match (entry.getKey "hwi").getD (.obj []) with
        | .obj hkvs =>
          match merriamLoop ((Json.getKey (.obj hkvs) "prs").getD (.arr [])) with
          | .error e => .error e
          | .ok phonetics => .ok (.obj [("phonetics", .arr phonetics)])
        | _ => .error ()
    | _ => .ok (.obj [])

/-- Lines 149-193 of the source: `fetch_merriam_pronunciation`; the
`except Exception: return {}` wrapper around the body.  The embedded
function is total: no outcome of the oracle makes it raise. -/
def fetch_merriam_pronunciation (api_key : String) (resp : Except Unit Json) : Json :=
  match merriamBody api_key resp with
  | .error _ => .obj []
  | .ok v => v

/-- The provider response from the specification's pronunciation example:
`[{"hwi":{"prs":[{"mw":"test","sound":{"audio":"test01"}}]}}]`. -/
def mwExampleResponse : Json :=
  .arr [.obj [("hwi", .obj [("prs",
    .arr [.obj [("mw", .str "test"), ("sound", .obj [("audio", .str "test01")])]])])]]

example :
    fetch_merriam_pronunciation "key" (.ok mwExampleResponse) =
      .obj [("phonetics", .arr [.obj [("text", .str "test"),
        ("audio", .str "https://media.merriam-webster.com/audio/prons/en/us/mp3/t/test01.mp3")]])] :=
  rfl

example : fetch_merriam_pronunciation "" (.ok mwExampleResponse) = .obj [] := rfl
example : fetch_merriam_pronunciation "key" (.error ()) = .obj [] := rfl

/-!
Aggregator (`fetch_definitions`, lines 119-147).
-/

/-- The external collaborators of one `fetch_definitions` call: the
Merriam HTTP response, the WordNet corpus and the Easton page fetch. -/
structure Oracles where
  merriam : Except Unit Json
  synsets : String → Except Unit (List Synset)
  easton : String → Except Unit HttpResp

/-- Lines 119-147 of the source: `fetch_definitions`.  The result dict is
built with all fields at their defaults and each source's contribution is
adopted only when truthy, via the same key assignments the Python code
performs. -/
def fetch_definitions (o : Oracles) (word api_key : String) : Json :=
  let result := Json.obj [("word", Json.str word),
    ("pronunciation", Json.obj [("phonetics", Json.arr [])]),
    ("definitions", Json.obj [("wordnet", Json.arr []), ("easton", Json.null)])]
  let merriam := fetch_merriam_pronunciation api_key o.merriam
  let result :=
    if truthy merriam && truthy ((merriam.getKey "phonetics").getD Json.null) then
      result.setKey "pronunciation" merriam
    else result
  let wordnet_defs := fetch_wordnet_definitions o.synsets word
  let result :=
    if !wordnet_defs.isEmpty then
      result.setKey "definitions"
        (((result.getKey "definitions").getD Json.null).setKey "wordnet"
          (Json.arr (wordnet_defs.map Json.str)))
    else result
  let easton_def := fetch_easton_definition o.easton word
  let result :=
    match easton_def with
    | some s =>
      if s ≠ "" then
        result.setKey "definitions"
          (((result.getKey "definitions").getD Json.null).setKey "easton" (Json.str s))
      else result
    | none => result
  result

/-- Oracles on which every source fails. -/
def failingOracles : Oracles :=
  ⟨.error (), fun _ => .error (), fun _ => .error ()⟩

example :
    fetch_definitions failingOracles "cat" "key" =
      Json.obj [("word", Json.str "cat"),
        ("pronunciation", Json.obj [("phonetics", Json.arr [])]),
        ("definitions", Json.obj [("wordnet", Json.arr []), ("easton", Json.null)])] :=
  rfl

/-!
Helper lemmas shared by the claim theorems.
-/

/-- The accumulation loop of the WordNet client is a `map`. -/
lemma wordnetLoop_eq (l : List Synset) (acc : List String) :
    wordnetLoop l acc = acc ++ l.map (fun s => posLabel s.pos ++ ": " ++ s.gloss) := by
  induction l generalizing acc with
  | nil => simp [wordnetLoop]
  | cons s rest ih => simp [wordnetLoop, ih]

/-- A failed Merriam request yields the empty dict, whatever the key. -/
lemma fetch_merriam_error (api_key : String) :
    fetch_merriam_pronunciation api_key (.error ()) = .obj [] := by
  by_cases h : (api_key == "") = true <;>
    simp [fetch_merriam_pronunciation, merriamBody, h]

/-- Every outcome of the body of the pronunciation client is an
exception, the empty dict, or a dict holding exactly a `phonetics`
list. -/
lemma merriamBody_shape (api_key : String) (resp : Except Unit Json) :
    merriamBody api_key resp = .error () ∨ merriamBody api_key resp = .ok (.obj []) ∨
      ∃ l, merriamBody api_key resp = .ok (.obj [("phonetics", Json.arr l)]) := by
  unfold merriamBody
  repeat' split
  all_goals
    first
      | exact Or.inl rfl
      | exact Or.inr (Or.inl rfl)
      | exact Or.inr (Or.inr ⟨_, rfl⟩)

/-- Every result of the pronunciation client is the empty dict or a dict
holding exactly a `phonetics` list. -/
lemma merriam_shape (api_key : String) (resp : Except Unit Json) :
    fetch_merriam_pronunciation api_key resp = .obj [] ∨
      ∃ l, fetch_merriam_pronunciation api_key resp = .obj [("phonetics", Json.arr l)] := by
  rcases merriamBody_shape api_key resp with h | h | ⟨l, h⟩ <;>
    simp [fetch_merriam_pronunciation, h]

/-- Shape of every aggregator result: the three top-level keys in
insertion order, a `phonetics` list under `pronunciation`, and a
`wordnet` list plus an `easton` value (null or a non-empty string) under
`definitions`. -/
lemma fetch_definitions_shape (o : Oracles) (word api_key : String) :
    ∃ ph wn es, fetch_definitions o word api_key =
      Json.obj [("word", Json.str word),
        ("pronunciation", Json.obj [("phonetics", Json.arr ph)]),
        ("definitions", Json.obj [("wordnet", Json.arr wn), ("easton", es)])] ∧
      (es = Json.null ∨ ∃ s, es = Json.str s ∧ s ≠ "") := by
  simp only [fetch_definitions]
  generalize fetch_wordnet_definitions o.synsets word = wn
  generalize fetch_easton_definition o.easton word = ea
  obtain hm | ⟨l, hm⟩ := merriam_shape api_key o.merriam <;> rw [hm] <;>
    first
      | (rcases l with - | ⟨j, l⟩ <;> rcases wn with - | ⟨w, wn⟩)
      | rcases wn with - | ⟨w, wn⟩
  all_goals simp [truthy, Json.setKey, Json.getKey, setAssoc]
  all_goals rcases ea with - | s
  all_goals try by_cases hs : s = ""
  all_goals
    first
      | exact ⟨_, _, Json.null, rfl, Or.inl rfl⟩
      | (subst hs; exact ⟨_, _, Json.null, rfl, Or.inl rfl⟩)
      | exact ⟨_, _, Json.str s, if_neg hs, Or.inr ⟨s, rfl, hs⟩⟩

/-!
Claim theorems.
-/

/-- Claim C2: for every word and every combination of source outcomes
(including all three sources failing) the aggregator result has the
fixed shape — a `word` field, a `pronunciation` field holding a
`phonetics` list, and a `definitions` field holding both a `wordnet`
list and an `easton` entry (a string or the explicit `null`, never a
missing field); with all sources failing the result is exactly the
all-default dict, `wordnet` defaulting to `[]` and `easton` to `null`. -/
theorem fetch_definitions_fixed_shape (o : Oracles) (word api_key : String) :
    (∃ ph wn es, fetch_definitions o word api_key =
      Json.obj [("word", Json.str word),
        ("pronunciation", Json.obj [("phonetics", Json.arr ph)]),
        ("definitions", Json.obj [("wordnet", Json.arr wn), ("easton", es)])] ∧
      (es = Json.null ∨ ∃ s, es = Json.str s)) ∧
    fetch_definitions failingOracles word api_key =
      Json.obj [("word", Json.str word),
        ("pronunciation", Json.obj [("phonetics", Json.arr [])]),
        ("definitions", Json.obj [("wordnet", Json.arr []), ("easton", Json.null)])] := by
  constructor
  · obtain ⟨ph, wn, es, h, hes⟩ := fetch_definitions_shape o word api_key
    refine ⟨ph, wn, es, h, ?_⟩
    rcases hes with he | ⟨s, he, -⟩
    · exact Or.inl he
    · exact Or.inr ⟨s, he⟩
  · simp only [fetch_definitions, failingOracles]
    rw [fetch_merriam_error]
    rfl

/-- Claim C10: the `word` field of every aggregator result echoes the
input word verbatim — no lowercasing, capitalization or trimming is
applied to it, whatever the sources return. -/
theorem fetch_definitions_word_verbatim (o : Oracles) (word api_key : String) :
    (fetch_definitions o word api_key).getKey "word" = some (Json.str word) := by
  obtain ⟨ph, wn, es, h, -⟩ := fetch_definitions_shape o word api_key
  rw [h]
  rfl

/-- Page oracle whose fallback text starts with the site-attribution
marker, making the extractor return the empty string. -/
def emptyEastonHttp : String → Except Unit HttpResp :=
  fun _ => .ok ⟨200, some ⟨[], "BibleGateway.com aaaaaaaaaaaaaaaaaaaaaaaaaaaaaaaaaaaaaaaa"⟩⟩

/-- Claim C9: the `easton` entry of every aggregator result is `null` or
a non-empty string, never the empty string — even though the extractor
itself can return `Some ""` (exhibited by the second conjunct, where the
fallback text starts with the site-attribution marker), because the
aggregator adopts a web-dictionary result only when it is truthy. -/
theorem easton_field_never_empty_string (o : Oracles) (word api_key : String) :
    (((fetch_definitions o word api_key).getKey "definitions").bind
        (fun d => d.getKey "easton") = some Json.null ∨
      ∃ s, ((fetch_definitions o word api_key).getKey "definitions").bind
        (fun d => d.getKey "easton") = some (Json.str s) ∧ s ≠ "") ∧
    fetch_easton_definition emptyEastonHttp "word" = some "" := by
  refine ⟨?_, rfl⟩
  obtain ⟨ph, wn, es, h, hes⟩ := fetch_definitions_shape o word api_key
  rcases hes with he | ⟨s, he, hs⟩
  · left
    rw [h, he]
    rfl
  · right
    exact ⟨s, by rw [h, he]; rfl, hs⟩

/-- Claim C4: the pronunciation client never raises — with no API key it
short-circuits to the empty dict (the result does not depend on the
network oracle at all), a request that raises is caught and yields the
empty dict, and every outcome whatsoever is the empty dict or a dict
holding exactly a `phonetics` list. -/
theorem merriam_never_raises (api_key : String) (resp : Except Unit Json) :
    (api_key = "" → fetch_merriam_pronunciation api_key resp = .obj []) ∧
    (resp = .error () → fetch_merriam_pronunciation api_key resp = .obj []) ∧
    (fetch_merriam_pronunciation api_key resp = .obj [] ∨
      ∃ l, fetch_merriam_pronunciation api_key resp = .obj [("phonetics", Json.arr l)]) := by
  refine ⟨?_, ?_, merriam_shape api_key resp⟩
  · rintro rfl
    rfl
  · rintro rfl
    exact fetch_merriam_error api_key

theorem merriam_never_raises_witness :
    fetch_merriam_pronunciation "" (.ok mwExampleResponse) = .obj [] ∧
    fetch_merriam_pronunciation "key" (.error ()) = .obj [] :=
  ⟨(merriam_never_raises "" (.ok mwExampleResponse)).1 rfl,
   (merriam_never_raises "key" (.error ())).2.1 rfl⟩

/-- Claim C7: a non-2xx status from the web dictionary page fetch makes
the client return `none` (so `definitions.easton` stays absent), and a
request that raises is likewise caught and returns `none`; no exception
escapes (the embedded client is a total function). -/
theorem easton_non2xx_returns_none (http : String → Except Unit HttpResp) (word : String) :
    (∀ r, http (eastonUrl word) = .ok r → ¬(200 ≤ r.status ∧ r.status < 300) →
      fetch_easton_definition http word = none) ∧
    (http (eastonUrl word) = .error () → fetch_easton_definition http word = none) := by
  constructor
  · intro r hr hn
    have h200 : (r.status == 200) = false := by
      rw [beq_eq_false_iff_ne]
      intro h
      exact hn (by omega)
    by_cases h4 : 400 ≤ r.status <;>
      simp [fetch_easton_definition, hr, h4, h200]
  · intro hr
    simp [fetch_easton_definition, hr]

/-- A page oracle answering 404 to every request. -/
def http404 : String → Except Unit HttpResp := fun _ => .ok ⟨404, none⟩

theorem easton_non2xx_returns_none_witness :
    ¬(200 ≤ 404 ∧ 404 < 300) ∧ fetch_easton_definition http404 "cat" = none :=
  ⟨by decide, (easton_non2xx_returns_none http404 "cat").1 ⟨404, none⟩ rfl (by decide)⟩

/-- Claim C6: the lexical database client looks up the lowercased word
and maps each sense, in database order, to `"<pos label>: <gloss>"`,
with the fixed table n→noun, v→verb, a→adjective, s→adjective satellite,
r→adverb and unknown codes passing through unchanged; a lookup failure
yields the empty list instead of propagating. -/
theorem wordnet_lookup_spec (synsets : String → Except Unit (List Synset)) (word : String) :
    (synsets (pyLower word) = .error () → fetch_wordnet_definitions synsets word = []) ∧
    (∀ l, synsets (pyLower word) = .ok l →
      fetch_wordnet_definitions synsets word =
        l.map (fun s => posLabel s.pos ++ ": " ++ s.gloss)) ∧
    posLabel "n" = "noun" ∧ posLabel "v" = "verb" ∧ posLabel "a" = "adjective" ∧
    posLabel "s" = "adjective satellite" ∧ posLabel "r" = "adverb" ∧
    (∀ p, p ∉ (["n", "v", "a", "s", "r"] : List String) → posLabel p = p) := by
  refine ⟨?_, ?_, rfl, rfl, rfl, rfl, rfl, ?_⟩
  · intro h
    simp [fetch_wordnet_definitions, h]
  · intro l h
    simp [fetch_wordnet_definitions, h, wordnetLoop_eq]
  · intro p hp
    simp only [List.mem_cons, List.not_mem_nil, or_false] at hp
    push_neg at hp
    obtain ⟨h1, h2, h3, h4, h5⟩ := hp
    have e1 : ("n" == p) = false := beq_eq_false_iff_ne.mpr (Ne.symm h1)
    have e2 : ("v" == p) = false := beq_eq_false_iff_ne.mpr (Ne.symm h2)
    have e3 : ("a" == p) = false := beq_eq_false_iff_ne.mpr (Ne.symm h3)
    have e4 : ("s" == p) = false := beq_eq_false_iff_ne.mpr (Ne.symm h4)
    have e5 : ("r" == p) = false := beq_eq_false_iff_ne.mpr (Ne.symm h5)
    simp [posLabel, pos_map, List.find?, e1, e2, e3, e4, e5]

theorem wordnet_lookup_spec_witness :
    fetch_wordnet_definitions (fun _ => .ok [⟨"n", "a small gloss"⟩, ⟨"z", "raw tag"⟩]) "MiXeD"
      = ["noun: a small gloss", "z: raw tag"] :=
  ((wordnet_lookup_spec (fun _ => .ok [⟨"n", "a small gloss"⟩, ⟨"z", "raw tag"⟩]) "MiXeD").2.1
    [⟨"n", "a small gloss"⟩, ⟨"z", "raw tag"⟩] rfl).trans rfl

/-- Claim C5: a pronunciation item whose sound reference carries a
non-empty audio filename `f` gets its audio URL from the fixed CDN
template with the first character of `f` as the subdirectory segment;
and on the specification's example response the emitted entry's audio
URL ends in `/mp3/t/test01.mp3`. -/
theorem merriam_audio_url (p sound : Json) (f : String)
    (hsound : p.getKey "sound" = some sound)
    (haudio : sound.getKey "audio" = some (.str f)) (hf : f ≠ "") :
    (∃ kvs, merriamItem p = .ok (.obj kvs) ∧
      (kvs.find? (fun kv => kv.1 == "audio")).map Prod.snd =
        some (.str ("https://media.merriam-webster.com/audio/prons/en/us/mp3/" ++
          pyTake 1 f ++ "/" ++ f ++ ".mp3"))) ∧
    fetch_merriam_pronunciation "key" (.ok mwExampleResponse) =
      .obj [("phonetics", .arr [.obj [("text", .str "test"),
        ("audio", .str ("https://media.merriam-webster.com/audio/prons/en/us" ++
          "/mp3/t/test01.mp3"))]])] := by
  refine ⟨?_, rfl⟩
  rcases p with - | sp | lp | kvs
  · exact absurd hsound (by simp [Json.getKey])
  · exact absurd hsound (by simp [Json.getKey])
  · exact absurd hsound (by simp [Json.getKey])
  rcases sound with - | sq | lq | skvs
  · exact absurd haudio (by simp [Json.getKey])
  · exact absurd haudio (by simp [Json.getKey])
  · exact absurd haudio (by simp [Json.getKey])
  rcases skvs with - | ⟨kv0, skvs⟩
  · exact absurd haudio (by simp [Json.getKey, List.find?])
  · have hbf : (f == "") = false := beq_eq_false_iff_ne.mpr hf
    have hsnd : merriamSound (Json.obj (kv0 :: skvs)) = .ok (some (mwAudioUrl f)) := by
      simp [merriamSound, truthy, haudio, hbf]
    have hitem : merriamItem (Json.obj kvs) = .ok (.obj
        ((if truthy ((Json.getKey (Json.obj kvs) "mw").getD Json.null) then
            [("text", (Json.getKey (Json.obj kvs) "mw").getD Json.null)] else []) ++
          [("audio", Json.str (mwAudioUrl f))])) := by
      simp [merriamItem, hsound, hsnd]
    refine ⟨_, hitem, ?_⟩
    have htext : (("text" : String) == "audio") = false := rfl
    have haud : (("audio" : String) == "audio") = true := rfl
    cases ht : truthy ((Json.getKey (Json.obj kvs) "mw").getD Json.null) <;>
      simp [ht, List.find?, htext, haud, mwAudioUrl]

/-- The single pronunciation item of the example response. -/
def mwExampleItem : Json :=
  .obj [("mw", .str "test"), ("sound", .obj [("audio", .str "test01")])]

theorem merriam_audio_url_witness :
    ("test01" : String) ≠ "" ∧
    (∃ kvs, merriamItem mwExampleItem = .ok (.obj kvs) ∧
      (kvs.find? (fun kv => kv.1 == "audio")).map Prod.snd =
        some (.str ("https://media.merriam-webster.com/audio/prons/en/us/mp3/" ++
          pyTake 1 "test01" ++ "/" ++ "test01" ++ ".mp3"))) :=
  ⟨by decide,
   (merriam_audio_url mwExampleItem (.obj [("audio", .str "test01")]) "test01"
      rfl rfl (by decide)).1⟩

/-- Boolean qualification the paragraph scan actually implements: the
paragraph text must be truthy and longer than 30 characters before
whitespace collapse, and its cleaned text longer than 20 characters. -/
def pQualifies (word p : String) : Bool :=
  (!(p == "")) && decide (pyLen p > 30) && decide (pyLen (pProcess word p) > 20)

/-- The paragraph-selection rule as claim C8 words it: the first
paragraph whose collapsed-whitespace text exceeds 30 characters is
cleaned, and its cleaned text is returned when it exceeds 20
characters. -/
def claimParagraphExtract (word : String) (ps : List String) : Option String :=
  match ps.find? (fun p => decide (pyLen (pyStrip (collapseWs p)) > 30)) with
  | none => none
  | some p =>
    let t := pProcess word p
    if pyLen t > 20 then some t else none

/-- First counterexample paragraph: 31 characters before whitespace
collapse (so the code processes it) but only 30 once collapsed (so the
claim's rule skips it). -/
def cexParaA : String := "abcdefghijklmnopqrstuvwxyz  123"

/-- The collapsed text of `cexParaA`, which the code returns. -/
def cexParaACollapsed : String := "abcdefghijklmnopqrstuvwxyz 123"

/-- Second counterexample paragraph: qualifies under both readings. -/
def cexParaB : String := "this paragraph contains well over thirty characters of content"

/-- Counterexample to claim C8: on `[cexParaA, cexParaB]` the code
returns the cleaned text of `cexParaA`, whose collapsed text does not
exceed 30 characters, while the claim's rule selects `cexParaB` — the
qualification threshold is applied before whitespace collapse, not to
the collapsed text. -/
theorem easton_paragraph_rule_counterexample :
    pyLen (pyStrip (collapseWs cexParaA)) = 30 ∧
    eastonParagraphs "w" [cexParaA, cexParaB] = some cexParaACollapsed ∧
    claimParagraphExtract "w" [cexParaA, cexParaB] = some cexParaB ∧
    cexParaACollapsed ≠ cexParaB := by decide

/-- Claim C8 (amended): the paragraph path returns the cleaned text of
the first paragraph whose raw text is truthy and longer than 30
characters before whitespace collapse and whose cleaned text (collapse,
boilerplate stripping, case-insensitive leading-word removal) exceeds 20
characters; that first qualifying paragraph wins with no ranking across
paragraphs. -/
theorem easton_paragraph_first_match (word : String) (ps : List String) :
    eastonParagraphs word ps = (ps.find? (pQualifies word)).map (pProcess word) := by
  induction ps with
  | nil => rfl
  | cons p rest ih =>
    by_cases h1 : p = ""
    · have b1 : (p == "") = true := beq_iff_eq.mpr h1
      simp [eastonParagraphs, List.find?, pQualifies, h1, b1, ih]
    · have b1 : (p == "") = false := beq_eq_false_iff_ne.mpr h1
      by_cases h2 : pyLen p > 30
      · by_cases h3 : pyLen (pProcess word p) > 20
        · simp [eastonParagraphs, List.find?, pQualifies, h1, b1, h2, h3]
        · simp [eastonParagraphs, List.find?, pQualifies, h1, b1, h2, h3, ih]
      · simp [eastonParagraphs, List.find?, pQualifies, h1, b1, h2, ih]

/-- The fallback rule as claim C3 words it: when the collapsed subtree
text exceeds 50 characters, strip the same three boilerplate trailers as
the paragraph path and the leading word, then truncate to 500
characters and return. -/
def claimFallbackExtract (word divText : String) : Option String :=
  if pyLen (collapseWs divText) > 50 then
    some (pyTake 500 (stripLeadingWord word
      (stripFrom "All rights reserved"
        (stripFrom "Copyright"
          (stripFrom "BibleGateway.com" (collapseWs divText))))))
  else none

/-- Fallback counterexample text: longer than 50 characters and carrying
a copyright trailer but no site-attribution marker. -/
def cexFallbackText : String :=
  "The city was an important place in ancient times for many reasons. Copyright 2010 by Somebody."

/-- What the claim's rule yields on `cexFallbackText`. -/
def cexFallbackStripped : String :=
  "The city was an important place in ancient times for many reasons. "

/-- Page oracle serving a page with no paragraphs and `cexFallbackText`
as subtree text. -/
def cexFallbackHttp : String → Except Unit HttpResp :=
  fun _ => .ok ⟨200, some ⟨[], cexFallbackText⟩⟩

/-- Counterexample to claim C3: on the fallback path the code returns
the text with its `Copyright ...` trailer intact, while the claim's rule
(same boilerplate stripping as the paragraph path, truncation last)
removes it — the fallback strips only the site-attribution pattern, and
truncates before stripping. -/
theorem easton_fallback_rule_counterexample :
    fetch_easton_definition cexFallbackHttp "city" = some cexFallbackText ∧
    claimFallbackExtract "city" cexFallbackText = some cexFallbackStripped ∧
    cexFallbackText ≠ cexFallbackStripped := by decide

/-- Claim C3 (amended): in the fallback path, when the subtree's joined
text is truthy and exceeds 50 characters before whitespace collapse, the
extractor collapses whitespace, truncates to 500 characters first,
strips only the site-attribution (`BibleGateway.com`) trailer — not the
copyright or rights-reserved patterns — applies the leading-word
removal, and returns the result. -/
theorem easton_fallback_truncate_then_strip (http : String → Except Unit HttpResp)
    (word : String) (r : HttpResp) (div : ContentDiv)
    (hr : http (eastonUrl word) = .ok r) (hst : r.status = 200)
    (hc : r.content = some div)
    (hp : eastonParagraphs word div.paragraphs = none)
    (h1 : div.fullText ≠ "") (h2 : pyLen div.fullText > 50) :
    fetch_easton_definition http word =
      some (stripLeadingWord word
        (stripFrom "BibleGateway.com" (pyTake 500 (collapseWs div.fullText)))) := by
  simp [fetch_easton_definition, hr, hst, hc, hp, eastonFallback, h1, h2]

theorem easton_fallback_truncate_then_strip_witness :
    pyLen cexFallbackText > 50 ∧
    fetch_easton_definition cexFallbackHttp "city" =
      some (stripLeadingWord "city"
        (stripFrom "BibleGateway.com" (pyTake 500 (collapseWs cexFallbackText)))) :=
  ⟨by decide,
   easton_fallback_truncate_then_strip cexFallbackHttp "city"
     ⟨200, some ⟨[], cexFallbackText⟩⟩ ⟨[], cexFallbackText⟩
     rfl rfl rfl rfl (by decide) (by decide)⟩

/-- Oracles on which every source succeeds, including for a
whitespace-only word. -/
def whitespaceOracles : Oracles :=
  ⟨.ok mwExampleResponse,
   fun s => if s == " " then .ok [⟨"n", "a gloss returned for the lookup"⟩] else .error (),
   fun _ => .ok ⟨200, some ⟨["whitespace paragraph content long enough to be adopted"], ""⟩⟩⟩

/-- Claim C1 evaluated on the code: `fetch_definitions` performs no
validation of the word argument.  For the whitespace-only word `" "` it
does not raise; it consults all three sources (their payloads appear in
the result) and returns the ordinary fixed-shape result. -/
theorem fetch_definitions_whitespace_not_rejected :
    fetch_definitions whitespaceOracles " " "key" =
      Json.obj [("word", Json.str " "),
        ("pronunciation", Json.obj [("phonetics", Json.arr [Json.obj [("text", Json.str "test"),
          ("audio",
            Json.str "https://media.merriam-webster.com/audio/prons/en/us/mp3/t/test01.mp3")]])]),
        ("definitions",
          Json.obj [("wordnet", Json.arr [Json.str "noun: a gloss returned for the lookup"]),
            ("easton", Json.str "whitespace paragraph content long enough to be adopted")])] := by
  rfl

end DictApi
